import Mathlib

/-!
Shallow embedding of the photo_matcher front end (src/unnamed/part_000).

The only non-trivial local logic of the repository is:
  * `normalizeIndices` — validation/cleaning of the model's index list;
  * the two-stage parse pipeline in `handleSubmit` (direct JSON parse,
    else regex extraction of the first bracketed digits/commas/whitespace
    substring, else empty list);
  * `isMatched` — the per-image membership test of the presentation layer.

JavaScript dynamic values are modelled by the inductive `JSVal`; JavaScript
numbers are modelled exactly (as rationals for finite values, with separate
constructors for NaN and the infinities), so `Number.isInteger` becomes a
denominator test.  IEEE-754 rounding and overflow of doubles are not
modelled: all numeric values that the claims exercise are small integers or
small non-integral rationals where the double semantics is exact.
-/

namespace PhotoMatcher

/-- Model of a JavaScript number: a finite value held exactly as a rational,
or NaN, or one of the two infinities. -/
inductive JSNum : Type where
  | fin (q : ℚ)
  | nan
  | posInf
  | negInf
deriving DecidableEq, Repr

/-- Model of a JavaScript runtime value as far as this program inspects one:
numbers, strings, booleans, null, undefined, arrays, and (plain) objects
with their fields. -/
inductive JSVal : Type where
  | num (x : JSNum)
  | str (s : String)
  | bool (b : Bool)
  | null
  | undef
  | list (xs : List JSVal)
  | obj (fields : List (String × JSVal))

/-- Whitespace in the sense of JavaScript string trimming and of the
whitespace skipped by `Number( )` string conversion (the common ASCII
white space characters plus NBSP and the BOM). -/
def isJsWhite (c : Char) : Bool :=
  c = ' ' || c = '\t' || c = '\n' || c = '\r' ||
  c = '\x0b' || c = '\x0c' || c = ' ' || c = '﻿'

/-- Model of `String.prototype.trim`: drop leading and trailing whitespace. -/
def jsTrim (s : String) : String :=
  String.mk (((s.data.dropWhile isJsWhite).reverse.dropWhile isJsWhite).reverse)

/-- Value of a digit character in bases up to 16 (`0`–`9`, `a`–`f`, `A`–`F`). -/
def hexVal (c : Char) : Nat :=
  if c.isDigit then c.toNat - 48 else c.toLower.toNat - 87

/-- Value of a digit string in the given base, most significant digit first. -/
def digitsVal (base : Nat) (cs : List Char) : Nat :=
  cs.foldl (fun a c => base * a + hexVal c) 0

/-- Hexadecimal digit test. -/
def isHexDigit (c : Char) : Bool :=
  c.isDigit || ('a' ≤ c && c ≤ 'f') || ('A' ≤ c && c ≤ 'F')

/-- Octal digit test. -/
def isOctDigit (c : Char) : Bool := '0' ≤ c && c ≤ '7'

/-- Binary digit test. -/
def isBinDigit (c : Char) : Bool := c = '0' || c = '1'

/-- Exponent part of a decimal literal (`e`/`E` already consumed): an
optional sign followed by a nonempty digit run consuming the whole rest. -/
def parseExpPart (cs : List Char) : Option Int :=
  match cs with
  | '+' :: ds => if ds ≠ [] && ds.all Char.isDigit then some (digitsVal 10 ds) else none
  | '-' :: ds => if ds ≠ [] && ds.all Char.isDigit then some (-(digitsVal 10 ds : Int)) else none
  | ds => if ds ≠ [] && ds.all Char.isDigit then some (digitsVal 10 ds) else none

/-- Unsigned decimal numeric literal of the JavaScript `Number( )` string
grammar: digits, an optional point with optional further digits (at least
one digit overall), and an optional exponent.  Returns the mantissa `m` and
the power `e` such that the value is `m * 10 ^ e`. -/
def parseDecimal (cs : List Char) : Option (Nat × Int) :=
  let (ip, r1) := cs.span Char.isDigit
  match r1 with
  | [] => if ip = [] then none else some (digitsVal 10 ip, 0)
  | '.' :: r2 =>
    let (fp, r3) := r2.span Char.isDigit
    if ip = [] && fp = [] then none
    else
      match r3 with
      | [] => some (digitsVal 10 (ip ++ fp), -(fp.length : Int))
      | 'e' :: r4 => (parseExpPart r4).map fun ex => (digitsVal 10 (ip ++ fp), ex - fp.length)
      | 'E' :: r4 => (parseExpPart r4).map fun ex => (digitsVal 10 (ip ++ fp), ex - fp.length)
      | _ => none
  | 'e' :: r4 =>
    if ip = [] then none else (parseExpPart r4).map fun ex => (digitsVal 10 ip, ex)
  | 'E' :: r4 =>
    if ip = [] then none else (parseExpPart r4).map fun ex => (digitsVal 10 ip, ex)
  | _ => none

/-- Exact value `sign * m * 10 ^ e` of a parsed decimal literal, as a
rational number. -/
def decValue (sign : Int) (m : Nat) (e : Int) : ℚ :=
  if 0 ≤ e then ((sign * ((m * 10 ^ e.toNat : Nat) : Int) : Int) : ℚ)
  else Rat.divInt (sign * (m : Int)) ((10 ^ (-e).toNat : Nat) : Int)

/-- Signed decimal magnitude (sign already consumed): `Infinity`, or a
decimal literal; everything else converts to NaN. -/
def decMag (sign : Int) (cs : List Char) : JSNum :=
  if cs = ['I', 'n', 'f', 'i', 'n', 'i', 't', 'y'] then
    if sign = 1 then .posInf else .negInf
  else
    match parseDecimal cs with
    | some (m, e) => .fin (decValue sign m e)
    | none => .nan

/-- Optionally signed decimal branch of `Number( )` string conversion. -/
def decSigned (cs : List Char) : JSNum :=
  match cs with
  | '+' :: rest => decMag 1 rest
  | '-' :: rest => decMag (-1) rest
  | rest => decMag 1 rest

/-- Model of JavaScript `Number(s)` for a string argument: trim; empty
converts to `0`; `0x`/`0o`/`0b` radix literals (no sign allowed); otherwise
an optionally signed decimal literal or `Infinity`; anything else is NaN. -/
def jsStrToNumber (s : String) : JSNum :=
  match (jsTrim s).data with
  | [] => .fin 0
  | '0' :: x :: rest =>
    if x = 'x' || x = 'X' then
      if rest ≠ [] && rest.all isHexDigit then .fin ((digitsVal 16 rest : Int) : ℚ) else .nan
    else if x = 'o' || x = 'O' then
      if rest ≠ [] && rest.all isOctDigit then .fin ((digitsVal 8 rest : Int) : ℚ) else .nan
    else if x = 'b' || x = 'B' then
      if rest ≠ [] && rest.all isBinDigit then .fin ((digitsVal 2 rest : Int) : ℚ) else .nan
    else decSigned ('0' :: x :: rest)
  | cs => decSigned cs

/-- Element-wise coercion of `normalizeIndices`:
`typeof v === "string" ? Number(v.trim()) : v`. -/
def coerceElem (v : JSVal) : JSVal :=
  match v with
  | .str s => .num (jsStrToNumber (jsTrim s))
  | v => v

/-- Model of the `Number.isInteger` filter: a value passes exactly when it
is a finite number with integral value, and the surviving value is
represented by that integer. -/
def jsToInteger? (v : JSVal) : Option Int :=
  match v with
  | .num (.fin q) => if q.den = 1 then some q.num else none
  | _ => none

/-- Worker for `dedupFirst`: keep each element not yet seen, tracking the
seen elements, exactly as `Set` insertion does. -/
def dedupFirstAux (seen : List Int) : List Int → List Int
  | [] => []
  | a :: l => if a ∈ seen then dedupFirstAux seen l else a :: dedupFirstAux (a :: seen) l

/-- Deduplication in the order of `Array.from(new Set(xs))`: the first
occurrence of each element is kept. -/
def dedupFirst (l : List Int) : List Int := dedupFirstAux [] l

/-- Model of `normalizeIndices(raw, groupCount)` from src/unnamed/part_000:
treat a non-array as empty; coerce string elements through `Number` after
trimming; keep only integral numbers; keep only indices in
`[1, groupCount]`; deduplicate (first occurrence order); sort ascending.
The function is total: no input makes it signal an error. -/
def normalizeIndices (raw : JSVal) (groupCount : Nat) : List Int :=
  let arr : List JSVal := match raw with | .list xs => xs | _ => []
  let nums : List Int := (arr.map coerceElem).filterMap jsToInteger?
  let cleaned : List Int :=
    dedupFirst (nums.filter fun n => 1 ≤ n ∧ n ≤ (groupCount : Int))
  List.insertionSort (· ≤ ·) cleaned

/-- Model of `Array.isArray`. -/
def isArray (v : JSVal) : Bool :=
  match v with
  | .list _ => true
  | _ => false

/-- Embedding of an already-clean integer list back into a JavaScript value
(an array of finite integral numbers), as the normalizer itself returns. -/
def listToJS (l : List Int) : JSVal :=
  .list (l.map fun n => .num (.fin ((n : Int) : ℚ)))

/-- Character class `\s` of the fallback regex (JavaScript whitespace). -/
def isRegexSpace (c : Char) : Bool := isJsWhite c

/-- Character class `[\d,\s]` of the fallback regex
`/\[[\d,\s]+\]/`: a decimal digit, a comma, or whitespace. -/
def isBracketChar (c : Char) : Bool := c.isDigit || c = ',' || isRegexSpace c

/-- Attempt of the fallback regex at one `[`: the characters after it must
begin with a nonempty run of `[\d,\s]` characters followed by `]`.  Returns
the matched text after the `[`, closing bracket included.  Because `]` is
not in the character class, the greedy `+` needs no backtracking: the run
is exactly the maximal class-character run. -/
def bracketBody (cs : List Char) : Option (List Char) :=
  let (run, rest) := cs.span isBracketChar
  match rest with
  | ']' :: _ => if run = [] then none else some (run ++ [']'])
  | _ => none

/-- Model of `output.match(/\[[\d,\s]+\]/)`: the leftmost match of the
regex, scanning candidate start positions left to right.  Only a `[` can
start a match. -/
def findBracket : List Char → Option (List Char)
  | [] => none
  | '[' :: rest =>
    match bracketBody rest with
    | some body => some ('[' :: body)
    | none => findBracket rest
  | _ :: rest => findBracket rest

/-- JSON insignificant whitespace. -/
def jsonWs (c : Char) : Bool := c = ' ' || c = '\t' || c = '\n' || c = '\r'

/-- Skip JSON insignificant whitespace. -/
def skipWs (cs : List Char) : List Char := cs.dropWhile jsonWs

/-- Hexadecimal digit of a `\u` escape, if any. -/
def hexDigToNat? (c : Char) : Option Nat :=
  if c.isDigit then some (c.toNat - 48)
  else if 'a' ≤ c && c ≤ 'f' then some (c.toNat - 87)
  else if 'A' ≤ c && c ≤ 'F' then some (c.toNat - 55)
  else none

/-- Single-character JSON string escapes. -/
def escChar? (c : Char) : Option Char :=
  match c with
  | '"' => some '"'
  | '\\' => some '\\'
  | '/' => some '/'
  | 'b' => some '\x08'
  | 'f' => some '\x0c'
  | 'n' => some '\n'
  | 'r' => some '\r'
  | 't' => some '\t'
  | _ => none

/-- Body of a JSON string literal (opening quote already consumed): the
decoded characters and the rest of the input after the closing quote.
Unescaped control characters below U+0020 are an error; `\u` escapes whose
code point is not a Unicode scalar value decode to U+0000 (the model's
stand-in for JavaScript lone surrogates, which nothing downstream
inspects). -/
def jsonStringChars : List Char → Option (List Char × List Char)
  | [] => none
  | '"' :: rest => some ([], rest)
  | '\\' :: rest =>
    match rest with
    | 'u' :: h1 :: h2 :: h3 :: h4 :: rest2 => do
      let d1 ← hexDigToNat? h1
      let d2 ← hexDigToNat? h2
      let d3 ← hexDigToNat? h3
      let d4 ← hexDigToNat? h4
      let (s, r) ← jsonStringChars rest2
      pure (Char.ofNat (4096 * d1 + 256 * d2 + 16 * d3 + d4) :: s, r)
    | c :: rest2 => do
      let e ← escChar? c
      let (s, r) ← jsonStringChars rest2
      pure (e :: s, r)
    | [] => none
  | c :: rest =>
    if c.toNat < 32 then none
    else do
      let (s, r) ← jsonStringChars rest
      pure (c :: s, r)

/-- Exponent part of a JSON number (after `e`/`E`): optional sign, then a
nonempty digit run.  `m` and `fl` are the mantissa and fraction length
accumulated so far. -/
def jsonNumExp (sign : Int) (m : Nat) (fl : Nat) (cs : List Char) :
    Option (JSNum × List Char) :=
  let (esign, cs1) : Int × List Char :=
    match cs with
    | '+' :: r => (1, r)
    | '-' :: r => (-1, r)
    | _ => (1, cs)
  let (ds, r) := cs1.span Char.isDigit
  if ds = [] then none
  else some (.fin (decValue sign m (esign * (digitsVal 10 ds : Int) - (fl : Int))), r)

/-- JSON number literal: an optional minus sign; an integer part that is
`0` or starts with a nonzero digit; an optional fraction with at least one
digit; an optional exponent with at least one digit.  Returns the value and
the rest of the input. -/
def jsonNumber (cs : List Char) : Option (JSNum × List Char) := do
  let (sign, cs1) : Int × List Char :=
    match cs with
    | '-' :: r => (-1, r)
    | _ => (1, cs)
  let (m0, r0) ← (match cs1 with
    | '0' :: r => some ((0 : Nat), r)
    | _ =>
      let (ds, r) := cs1.span Char.isDigit
      if ds = [] then none else some (digitsVal 10 ds, r))
  let (m1, fl, r1) ← (match r0 with
    | '.' :: r =>
      let (fs, r2) := r.span Char.isDigit
      if fs = [] then none
      else some (m0 * 10 ^ fs.length + digitsVal 10 fs, fs.length, r2)
    | _ => some (m0, 0, r0))
  match r1 with
  | 'e' :: r2 => jsonNumExp sign m1 fl r2
  | 'E' :: r2 => jsonNumExp sign m1 fl r2
  | _ => some (.fin (decValue sign m1 (-(fl : Int))), r1)

mutual

/-- A JSON value starting at the given characters (leading whitespace
already skipped): object, array, string, `true`, `false`, `null`, or a
number.  Fuel bounds the recursion depth; `jsonParse` supplies enough fuel
for any input. -/
def jsonValue : Nat → List Char → Option (JSVal × List Char)
  | 0, _ => none
  | f + 1, cs =>
    match cs with
    | '{' :: rest =>
      (match skipWs rest with
       | '}' :: r2 => some (.obj [], r2)
       | r1 => (jsonMembers f r1).map fun (fs, r) => (.obj fs, r))
    | '[' :: rest =>
      (match skipWs rest with
       | ']' :: r2 => some (.list [], r2)
       | r1 => (jsonElements f r1).map fun (xs, r) => (.list xs, r))
    | '"' :: rest => (jsonStringChars rest).map fun (s, r) => (.str (String.mk s), r)
    | 't' :: 'r' :: 'u' :: 'e' :: r => some (.bool true, r)
    | 'f' :: 'a' :: 'l' :: 's' :: 'e' :: r => some (.bool false, r)
    | 'n' :: 'u' :: 'l' :: 'l' :: r => some (.null, r)
    | _ => (jsonNumber cs).map fun (n, r) => (.num n, r)

/-- The nonempty element list of a JSON array (after `[` and whitespace). -/
def jsonElements : Nat → List Char → Option (List JSVal × List Char)
  | 0, _ => none
  | f + 1, cs => do
    let (v, r1) ← jsonValue f cs
    match skipWs r1 with
    | ',' :: r3 => do
      let (vs, r4) ← jsonElements f (skipWs r3)
      pure (v :: vs, r4)
    | ']' :: r3 => pure ([v], r3)
    | _ => none

/-- The nonempty member list of a JSON object (after `{` and whitespace). -/
def jsonMembers : Nat → List Char → Option (List (String × JSVal) × List Char)
  | 0, _ => none
  | f + 1, cs =>
    match cs with
    | '"' :: rest => do
      let (ks, r1) ← jsonStringChars rest
      match skipWs r1 with
      | ':' :: r3 => do
        let (v, r4) ← jsonValue f (skipWs r3)
        match skipWs r4 with
        | ',' :: r6 => do
          let (fs, r7) ← jsonMembers f (skipWs r6)
          pure ((String.mk ks, v) :: fs, r7)
        | '}' :: r6 => pure ([(String.mk ks, v)], r6)
        | _ => none
      | _ => none
    | _ => none

end

/-- Model of `JSON.parse(s)`: `some` value on success, `none` where the
JavaScript call would throw.  The fuel `2 * length + 2` exceeds the
recursion depth reachable on the input, since every two nested calls
consume at least one character. -/
def jsonParse (s : String) : Option JSVal :=
  match jsonValue (2 * s.data.length + 2) (skipWs s.data) with
  | some (v, rest) => if skipWs rest = [] then some v else none
  | none => none

/-- The parse pipeline of `handleSubmit` applied to the raw model text:
try `JSON.parse` directly; on failure, search for the first bracketed
digits/commas/whitespace substring and try `JSON.parse` on it; if both
fail (or no such substring exists), the empty list stands in. -/
def extractIndices (output : String) : JSVal :=
  match jsonParse output with
  | some v => v
  | none =>
    match findBracket output.data with
    | some cs =>
      (match jsonParse (String.mk cs) with
       | some v => v
       | none => .list [])
    | none => .list []

/-- The transient UI state of the component: the six `useState` hooks.
Image blobs carry no information the logic inspects, so a file is `Unit`;
only the presence of the reference photo and the number (and order) of
group photos matter. -/
structure AppState where
  apiKey : String
  referencePhoto : Option Unit
  groupPhotos : List Unit
  matchedIndices : List Int
  outputText : String
  loading : Bool
deriving DecidableEq

/-- Outcome of the one network interaction of a submission, injected into
the model: either the response arrived and its body was valid JSON, with
`output` the text extracted from the provider envelope
(`data.output?.[0]?.content?.[0]?.text || ""`), or the `fetch` call or
`response.json()` threw. -/
inductive NetOutcome : Type where
  | ok (output : String)
  | fail
deriving DecidableEq

/-- Observable result of one `handleSubmit` run: the final UI state,
whether the network was contacted, and the alert message shown, if any. -/
structure SubmitResult where
  state : AppState
  networkUsed : Bool
  alertMsg : Option String
deriving DecidableEq

/-- Model of `handleSubmit` from src/unnamed/part_000.  Missing inputs
(falsy API key, i.e. the empty string; no reference photo; empty group
photo list) alert and return before any network activity, leaving the
state untouched.  Otherwise the busy flag is raised and the result fields
are reset, the single request runs, and on success the raw text and the
normalized index set are stored; a caught failure leaves them reset.  The
`finally` clause always clears the busy flag.  Image encoding, which the
logic never inspects, is elided. -/
def handleSubmit (s : AppState) (net : NetOutcome) : SubmitResult :=
  if s.apiKey = "" ∨ s.referencePhoto = none ∨ s.groupPhotos = [] then
    { state := s, networkUsed := false,
      alertMsg := some "Please provide API key, a reference photo, and group photos." }
  else
    let s1 : AppState := { s with loading := true, matchedIndices := [], outputText := "" }
    match net with
    | .fail =>
      { state := { s1 with loading := false }, networkUsed := true, alertMsg := none }
    | .ok output =>
      let parsed : JSVal := extractIndices output
      let normalized : List Int := normalizeIndices parsed s.groupPhotos.length
      { state :=
          { s1 with
            outputText := output
            matchedIndices := normalized
            loading := false }
        networkUsed := true
        alertMsg := none }

/-- Model of `isMatched` from src/unnamed/part_000: the group image at
0-based position `index` is marked as a match exactly when
`matchedIndices.includes(index + 1)`. -/
def isMatched (matchedIndices : List Int) (index : Nat) : Bool :=
  matchedIndices.contains ((index : Int) + 1)

/-! ### Properties of the deduplication pass -/

theorem mem_dedupFirstAux (x : Int) :
    ∀ (l seen : List Int), x ∈ dedupFirstAux seen l ↔ x ∈ l ∧ x ∉ seen := by
  intro l
  induction l with
  | nil => intro seen; simp [dedupFirstAux]
  | cons a t ih =>
    intro seen
    by_cases h : a ∈ seen
    · simp only [dedupFirstAux, if_pos h, ih, List.mem_cons]
      constructor
      · exact fun ⟨hx, hs⟩ => ⟨Or.inr hx, hs⟩
      · rintro ⟨rfl | hx, hs⟩
        · exact absurd h hs
        · exact ⟨hx, hs⟩
    · simp only [dedupFirstAux, if_neg h, List.mem_cons, ih, not_or]
      constructor
      · rintro (rfl | ⟨hx, hxa, hxs⟩)
        · exact ⟨Or.inl rfl, h⟩
        · exact ⟨Or.inr hx, hxs⟩
      · rintro ⟨rfl | hx, hs⟩
        · exact Or.inl rfl
        · by_cases hxa : x = a
          · exact Or.inl hxa
          · exact Or.inr ⟨hx, hxa, hs⟩

theorem mem_dedupFirst (x : Int) (l : List Int) : x ∈ dedupFirst l ↔ x ∈ l := by
  rw [dedupFirst, mem_dedupFirstAux]
  simp

theorem nodup_dedupFirstAux : ∀ (l seen : List Int), (dedupFirstAux seen l).Nodup := by
  intro l
  induction l with
  | nil => intro seen; simp [dedupFirstAux]
  | cons a t ih =>
    intro seen
    by_cases h : a ∈ seen
    · simpa only [dedupFirstAux, if_pos h] using ih seen
    · simp only [dedupFirstAux, if_neg h]
      refine List.nodup_cons.mpr ⟨fun hmem => ?_, ih _⟩
      exact ((mem_dedupFirstAux a t (a :: seen)).mp hmem).2 (List.mem_cons_self a seen)

theorem nodup_dedupFirst (l : List Int) : (dedupFirst l).Nodup :=
  nodup_dedupFirstAux l []

theorem dedupFirstAux_eq_self :
    ∀ (l seen : List Int), l.Nodup → (∀ x ∈ l, x ∉ seen) → dedupFirstAux seen l = l := by
  intro l
  induction l with
  | nil => intro seen _ _; rfl
  | cons a t ih =>
    intro seen hnd hdisj
    have hnd' := List.nodup_cons.mp hnd
    have hsub : ∀ x ∈ t, x ∉ a :: seen := by
      intro x hx
      simp only [List.mem_cons, not_or]
      exact ⟨fun he => hnd'.1 (he ▸ hx), hdisj x (List.mem_cons_of_mem a hx)⟩
    simp only [dedupFirstAux, if_neg (hdisj a (List.mem_cons_self a t))]
    rw [ih (a :: seen) hnd'.2 hsub]

theorem dedupFirst_eq_self (l : List Int) (h : l.Nodup) : dedupFirst l = l :=
  dedupFirstAux_eq_self l [] h (by simp)

/-! ### Invariants of the normalizer -/

theorem normalizeIndices_sorted_le (raw : JSVal) (g : Nat) :
    (normalizeIndices raw g).Sorted (· ≤ ·) := by
  simp only [normalizeIndices]
  exact List.sorted_insertionSort _ _

theorem normalizeIndices_nodup (raw : JSVal) (g : Nat) :
    (normalizeIndices raw g).Nodup := by
  simp only [normalizeIndices]
  exact ((List.perm_insertionSort _ _).nodup_iff).mpr (nodup_dedupFirst _)

theorem normalizeIndices_mem_bounds (raw : JSVal) (g : Nat) (n : Int)
    (hn : n ∈ normalizeIndices raw g) : 1 ≤ n ∧ n ≤ (g : Int) := by
  simp only [normalizeIndices, List.mem_insertionSort, mem_dedupFirst,
    List.mem_filter, decide_eq_true_eq] at hn
  exact hn.2

theorem normalizeIndices_sorted_lt (raw : JSVal) (g : Nat) :
    (normalizeIndices raw g).Sorted (· < ·) := by
  have hle := normalizeIndices_sorted_le raw g
  have hnd := normalizeIndices_nodup raw g
  exact List.Pairwise.imp (fun h => lt_of_le_of_ne h.1 h.2) (List.Pairwise.and hle hnd)

theorem normalizeIndices_zero (raw : JSVal) : normalizeIndices raw 0 = [] := by
  refine List.eq_nil_iff_forall_not_mem.mpr fun n hn => ?_
  have h := normalizeIndices_mem_bounds raw 0 n hn
  omega

theorem jsToInteger_intCast (n : Int) :
    jsToInteger? (coerceElem (.num (.fin (n : ℚ)))) = some n := by
  simp [coerceElem, jsToInteger?]

theorem filterMap_roundtrip (l : List Int) :
    ((l.map fun n : Int => JSVal.num (.fin (n : ℚ))).map coerceElem).filterMap jsToInteger? = l := by
  induction l with
  | nil => rfl
  | cons a t ih =>
    simp only [List.map_cons, List.filterMap_cons, jsToInteger_intCast, ih]

theorem norm_fixed (g : Nat) (l : List Int)
    (hb : ∀ n ∈ l, 1 ≤ n ∧ n ≤ (g : Int))
    (hs : l.Sorted (· ≤ ·)) (hn : l.Nodup) :
    normalizeIndices (listToJS l) g = l := by
  simp only [normalizeIndices, listToJS]
  rw [filterMap_roundtrip,
    List.filter_eq_self.mpr (fun a ha => by simpa using hb a ha),
    dedupFirst_eq_self l hn]
  exact hs.insertionSort_eq

theorem normalizeIndices_idem (raw : JSVal) (g : Nat) :
    normalizeIndices (listToJS (normalizeIndices raw g)) g = normalizeIndices raw g :=
  norm_fixed g _ (fun n hn => normalizeIndices_mem_bounds raw g n hn)
    (normalizeIndices_sorted_le raw g) (normalizeIndices_nodup raw g)

/-! ### The claims -/

/-- C1: for every group count `g ≥ 0` and every raw input value of any
shape, `normalizeIndices` returns a strictly ascending sequence of unique
integers, each in the inclusive range `[1, g]`; being a total function it
never signals an error; and for `g = 0` the result is the empty sequence
regardless of the input. -/
theorem claim_normalizer_output_valid (raw : JSVal) (g : Nat) :
    (normalizeIndices raw g).Sorted (· < ·) ∧
    (∀ n ∈ normalizeIndices raw g, 1 ≤ n ∧ n ≤ (g : Int)) ∧
    normalizeIndices raw 0 = [] :=
  ⟨normalizeIndices_sorted_lt raw g,
   fun n hn => normalizeIndices_mem_bounds raw g n hn,
   normalizeIndices_zero raw⟩

/-- Witness for C1 at a concrete input: the membership part instantiated at
the output element `2` of normalizing the array of numbers `2, 1` against
group count `3`. -/
theorem claim_normalizer_output_valid_witness :
    (2 : Int) ∈ normalizeIndices (.list [.num (.fin 2), .num (.fin 1)]) 3 ∧
    (1 ≤ (2 : Int) ∧ (2 : Int) ≤ ((3 : Nat) : Int)) :=
  ⟨by decide,
   (claim_normalizer_output_valid (.list [.num (.fin 2), .num (.fin 1)]) 3).2.1 2 (by decide)⟩

/-- C2: the raw model text is first parsed directly as JSON; on failure the
first bracketed substring of digits, commas and whitespace is extracted and
parsed instead; if both attempts fail the normalizer receives the empty
list.  For the raw text `Here you go: [1, 3]` and group count `3` the final
result is `[1, 3]`. -/
theorem claim_parse_pipeline :
    jsonParse "Here you go: [1, 3]" = none ∧
    findBracket ("Here you go: [1, 3]").data = some ("[1, 3]").data ∧
    jsonParse "[1, 3]" = some (.list [.num (.fin 1), .num (.fin 3)]) ∧
    extractIndices "Here you go: [1, 3]" = .list [.num (.fin 1), .num (.fin 3)] ∧
    (∀ s : String, jsonParse s = none → findBracket s.data = none →
      extractIndices s = .list []) ∧
    extractIndices "see [,] there" = .list [] ∧
    normalizeIndices (extractIndices "Here you go: [1, 3]") 3 = [1, 3] := by
  refine ⟨rfl, rfl, rfl, rfl, ?_, rfl, rfl⟩
  intro s h1 h2
  simp [extractIndices, h1, h2]

/-- Witness for C2's universally quantified conjunct: a text with neither
valid JSON nor a bracketed index list degrades to the empty list. -/
theorem claim_parse_pipeline_witness : extractIndices "no indices here" = .list [] :=
  claim_parse_pipeline.2.2.2.2.1 "no indices here" rfl rfl

/-- C3: string elements are numerically converted after trimming and all
other elements pass through unchanged; elements that are not well-formed
integers (such as `2.5`) and integers outside `[1, groupCount]` are
discarded; concretely the strings `2`, `4` against group count `4` give
`[2, 4]`, and `0, 6, "x", 2.5` against group count `5` give `[]`. -/
theorem claim_element_coercion :
    coerceElem (.str " 2 ") = .num (.fin 2) ∧
    jsToInteger? (.num (.fin (Rat.divInt 5 2))) = none ∧
    normalizeIndices (.list [.str "2", .str "4"]) 4 = [2, 4] ∧
    normalizeIndices
      (.list [.num (.fin 0), .num (.fin 6), .str "x", .num (.fin (Rat.divInt 5 2))]) 5 = [] :=
  ⟨rfl, rfl, rfl, rfl⟩

/-- C4: the surviving values are deduplicated with set semantics and sorted
ascending; concretely `3, 1, 2, 1` against group count `5` gives
`[1, 2, 3]`. -/
theorem claim_dedup_sort (raw : JSVal) (g : Nat) :
    (normalizeIndices raw g).Nodup ∧
    (normalizeIndices raw g).Sorted (· ≤ ·) ∧
    normalizeIndices
      (.list [.num (.fin 3), .num (.fin 1), .num (.fin 2), .num (.fin 1)]) 5 = [1, 2, 3] :=
  ⟨normalizeIndices_nodup raw g, normalizeIndices_sorted_le raw g, rfl⟩

/-- C5: every input value that is not an array normalizes to the empty
sequence (fail open), for every group count. -/
theorem claim_non_list_empty (v : JSVal) (g : Nat) (h : isArray v = false) :
    normalizeIndices v g = [] := by
  cases v with
  | list xs => simp [isArray] at h
  | num x => rfl
  | str s => rfl
  | bool b => rfl
  | null => rfl
  | undef => rfl
  | obj fields => rfl

/-- Witness for C5: the string `not a list` against group count `5`. -/
theorem claim_non_list_empty_witness :
    isArray (.str "not a list") = false ∧ normalizeIndices (.str "not a list") 5 = [] :=
  ⟨rfl, claim_non_list_empty (.str "not a list") 5 rfl⟩

/-- C6: the normalizer is idempotent: normalizing its own output (as an
array of numbers) against the same group count returns it unchanged. -/
theorem claim_idempotent (raw : JSVal) (g : Nat) :
    normalizeIndices (listToJS (normalizeIndices raw g)) g = normalizeIndices raw g :=
  normalizeIndices_idem raw g

/-- C7: with an empty credential, or no reference photo, or no group
photos, a submission surfaces an alert and aborts before any network
activity, leaving the state (the loading flag, matched-index set and
output text included) unchanged. -/
theorem claim_missing_input_aborts (s : AppState) (net : NetOutcome)
    (h : s.apiKey = "" ∨ s.referencePhoto = none ∨ s.groupPhotos = []) :
    handleSubmit s net =
      { state := s, networkUsed := false,
        alertMsg := some "Please provide API key, a reference photo, and group photos." } := by
  simp only [handleSubmit, if_pos h]

/-- Witness for C7: a state with an empty credential aborts unchanged. -/
theorem claim_missing_input_aborts_witness :
    handleSubmit
      { apiKey := "", referencePhoto := some (), groupPhotos := [()],
        matchedIndices := [7], outputText := "old", loading := false } .fail =
      { state :=
          { apiKey := "", referencePhoto := some (), groupPhotos := [()],
            matchedIndices := [7], outputText := "old", loading := false }
        networkUsed := false
        alertMsg := some "Please provide API key, a reference photo, and group photos." } :=
  claim_missing_input_aborts _ _ (Or.inl rfl)

/-- C8: a caught failure of the network call or of the JSON parsing of the
response degrades to an empty matched-index set and returns the UI to the
ready state: the busy flag is cleared.  The model performs exactly one
network interaction, so no retry occurs. -/
theorem claim_failure_degrades (s : AppState)
    (h : ¬(s.apiKey = "" ∨ s.referencePhoto = none ∨ s.groupPhotos = [])) :
    (handleSubmit s .fail).state.matchedIndices = [] ∧
    (handleSubmit s .fail).state.outputText = "" ∧
    (handleSubmit s .fail).state.loading = false ∧
    (handleSubmit s .fail).networkUsed = true := by
  simp [handleSubmit, if_neg h]

/-- Witness for C8: a complete submission state whose network call fails
ends with an empty matched-index set and a cleared busy flag. -/
theorem claim_failure_degrades_witness :
    (handleSubmit
      { apiKey := "key", referencePhoto := some (), groupPhotos := [()],
        matchedIndices := [3], outputText := "old", loading := false } .fail).state.matchedIndices
        = [] ∧
    (handleSubmit
      { apiKey := "key", referencePhoto := some (), groupPhotos := [()],
        matchedIndices := [3], outputText := "old", loading := false } .fail).state.loading
        = false := by
  have h := claim_failure_degrades
    { apiKey := "key", referencePhoto := some (), groupPhotos := [()],
      matchedIndices := [3], outputText := "old", loading := false } (by decide)
  exact ⟨h.1, h.2.2.1⟩

/-- C9: the presentation marks the group image at 0-based position `i` as a
match exactly when `i + 1` is a member of the current matched-index set. -/
theorem claim_isMatched_iff (m : List Int) (i : Nat) :
    isMatched m i = true ↔ ((i : Int) + 1) ∈ m := by
  simp [isMatched]

/-- Witness for C9: position `1` is marked when the set contains `2`. -/
theorem claim_isMatched_iff_witness : isMatched [2] 1 = true :=
  (claim_isMatched_iff [2] 1).mpr (by decide)

/-- C10: the string coercion is full JavaScript `Number` conversion, so
scientific and hexadecimal notations are accepted when in range
(`1e1` gives `10`, `0x10` gives `16`), while empty and whitespace-only
strings coerce to `0` and are always excluded as out of range. -/
theorem claim_number_coercion_full :
    jsStrToNumber "" = .fin 0 ∧
    normalizeIndices (.list [.str "1e1"]) 10 = [10] ∧
    normalizeIndices (.list [.str "0x10"]) 20 = [16] ∧
    (∀ g : Nat, normalizeIndices (.list [.str ""]) g = []) ∧
    (∀ g : Nat, normalizeIndices (.list [.str "  "]) g = []) :=
  ⟨rfl, rfl, rfl, fun _ => rfl, fun _ => rfl⟩

end PhotoMatcher
